import Mathlib

/-!
Verification of the Item Resource Server in `src/http-demo/server.js`.

The server is a small Express application holding an in-memory collection of
items (`{id, name, price}`) guarded by a monotone id counter, with CRUD route
handlers plus a content-negotiated root index.  We embed the route handlers as
pure functions over an explicit `ServerState`; the JavaScript dynamic values
appearing in request bodies are modelled by `JSVal`, and JavaScript numbers by
`JSNum` (NaN, the two infinities, or a finite value modelled as a rational —
every numeric literal appearing in the server and in the claims is exactly
representable).  `Number()` coercion is modelled by `toNumber`, including the
ECMAScript string-to-number rules for decimal literals (hex/octal/binary string
forms are not modelled; no claim involves them).
-/

/-- Model of a JavaScript number: NaN, +Infinity, -Infinity, or a finite value
(modelled as a rational). -/
inductive JSNum where
  | nan : JSNum
  | posInf : JSNum
  | negInf : JSNum
  | fin : ℚ → JSNum
deriving DecidableEq, Repr

/-- Model of a JavaScript value as it can appear in a parsed JSON/urlencoded
request-body field: `undef` stands for the field being absent (destructuring
yields `undefined`). -/
inductive JSVal where
  | undef : JSVal
  | null : JSVal
  | bool : Bool → JSVal
  | num : JSNum → JSVal
  | str : String → JSVal
deriving DecidableEq, Repr

/-- JavaScript whitespace as used by `String.prototype.trim` and by string
numeric coercion (ASCII whitespace plus NBSP; further exotic Unicode space
code points are omitted, no claim involves them). -/
def isJsWhitespace (c : Char) : Bool :=
  c = ' ' || c = '\t' || c = '\n' || c = '\r' || c = '\x0b' || c = '\x0c' || c = ' '

/-- Trim JavaScript whitespace from both ends of a character list. -/
def jsTrimList (cs : List Char) : List Char :=
  ((cs.dropWhile isJsWhitespace).reverse.dropWhile isJsWhitespace).reverse

/-- `s.trim()` of JavaScript. -/
def jsTrim (s : String) : String :=
  String.mk (jsTrimList s.data)

/-- Numeric value of a list of decimal digit characters, most significant
first (the empty list yields 0; callers check emptiness). -/
def digitsToNat (ds : List Char) : Nat :=
  ds.foldl (fun a c => a * 10 + (c.toNat - 48)) 0

/-- Parse an optional ECMAScript exponent part (`e`/`E`, optional sign,
digits) following an already-parsed mantissa; the whole remaining input must
be consumed. -/
def parseExpTail (mant : ℚ) (cs : List Char) : Option ℚ :=
  match cs with
  | [] => some mant
  | e :: rest =>
    if e = 'e' || e = 'E' then
      let (sgn, rest2) : Int × List Char :=
        match rest with
        | '+' :: r => (1, r)
        | '-' :: r => (-1, r)
        | r => (1, r)
      let ds := rest2.takeWhile Char.isDigit
      let rest3 := rest2.dropWhile Char.isDigit
      if ds.isEmpty || !rest3.isEmpty then none
      else some (mant * (10 : ℚ) ^ (sgn * (digitsToNat ds : Int)))
    else none

/-- Parse an unsigned ECMAScript decimal literal (`digits[.digits][exp]` or
`.digits[exp]`), consuming all input. -/
def parseUnsigned (cs : List Char) : Option ℚ :=
  let ip := cs.takeWhile Char.isDigit
  let rest1 := cs.dropWhile Char.isDigit
  match rest1 with
  | '.' :: rest2 =>
    let fp := rest2.takeWhile Char.isDigit
    let rest3 := rest2.dropWhile Char.isDigit
    if ip.isEmpty && fp.isEmpty then none
    else parseExpTail ((digitsToNat ip : ℚ) + (digitsToNat fp : ℚ) / (10 : ℚ) ^ fp.length) rest3
  | _ =>
    if ip.isEmpty then none
    else parseExpTail (digitsToNat ip : ℚ) rest1

/-- ECMAScript string-to-number coercion: trim whitespace, empty string is 0,
signed `Infinity` or a signed decimal literal; anything else is NaN. -/
def strToNumber (s : String) : JSNum :=
  let cs := jsTrimList s.data
  if cs.isEmpty then .fin 0
  else
    let (neg, body) : Bool × List Char :=
      match cs with
      | '+' :: r => (false, r)
      | '-' :: r => (true, r)
      | r => (false, r)
    if body = "Infinity".data then (if neg then .negInf else .posInf)
    else
      match parseUnsigned body with
      | some q => .fin (if neg then -q else q)
      | none => .nan

/-- JavaScript `Number()` coercion on the modelled values. -/
def toNumber : JSVal → JSNum
  | .undef => .nan
  | .null => .fin 0
  | .bool b => .fin (if b then 1 else 0)
  | .num n => n
  | .str s => strToNumber s

/-- `Number.isFinite`. -/
def JSNum.isFin : JSNum → Bool
  | .fin _ => true
  | _ => false

/-- The shared name validation of the handlers
(`typeof name !== 'string' || name.trim() === ''`): returns the trimmed
name that would be stored when valid. -/
def validName : JSVal → Option String
  | .str s => if jsTrim s = "" then none else some (jsTrim s)
  | _ => none

/-- The shared price validation of the handlers
(`const numericPrice = Number(price); !Number.isFinite(numericPrice) || numericPrice < 0`):
returns the coerced numeric price that would be stored when valid. -/
def validPrice (v : JSVal) : Option ℚ :=
  match toNumber v with
  | .fin q => if q < 0 then none else some q
  | _ => none

/-- An item record of the in-memory collection.  `price` is stored as the
coerced finite number, hence a rational in the model. -/
structure Item where
  id : Nat
  name : String
  price : ℚ
deriving DecidableEq, Repr

/-- The process-wide mutable state: the id counter `nextId` and the ordered
collection `items`. -/
structure ServerState where
  nextId : Nat
  items : List Item
deriving DecidableEq, Repr

/-- The seed state of `server.js` (lines 29-33). -/
def seedState : ServerState :=
  { nextId := 3,
    items := [{ id := 1, name := "Notebook", price := 4.5 },
              { id := 2, name := "Pen", price := 1.25 }] }

/-- A request body destructured as `const { name, price } = req.body`. -/
structure ReqBody where
  name : JSVal
  price : JSVal
deriving DecidableEq, Repr

/-- Response bodies that the modelled handlers produce.  The four `...Index`
constructors stand for the fixed endpoint-index documents of the root handler
(server.js lines 59-137); their literal text is presentation only and is not
load-bearing for any claim. -/
inductive RespBody where
  | empty : RespBody
  | text : String → RespBody
  | errObj : String → String → RespBody
  | itemObj : Item → RespBody
  | listObj : Nat → List Item → RespBody
  | plainIndex : RespBody
  | jsonIndex : RespBody
  | xmlIndex : RespBody
  | htmlIndex : RespBody
deriving DecidableEq, Repr

/-- An HTTP response: status code, headers (in the order set), body. -/
structure Response where
  status : Nat
  headers : List (String × String)
  body : RespBody
deriving DecidableEq, Repr

/-- The 404 body shared by GET/PUT/PATCH/DELETE on `/items/:id`:
`{error:'not_found', message:'No item with id <id>'}`. -/
def notFoundResp (id : Nat) : Response :=
  { status := 404, headers := [],
    body := .errObj "not_found" ("No item with id " ++ toString id) }

/-- A 400 `bad_request` response with the given message. -/
def badReq (msg : String) : Response :=
  { status := 400, headers := [], body := .errObj "bad_request" msg }

/-- `findItem` of server.js: `items.find((x) => x.id === id)`. -/
def findItem (st : ServerState) (id : Nat) : Option Item :=
  st.items.find? (fun x => x.id == id)

/-- `items.findIndex(p)` of JavaScript (as an `Option Nat` instead of -1). -/
def findIndexJs (p : Item → Bool) : List Item → Option Nat
  | [] => none
  | x :: rest => if p x then some 0 else (findIndexJs p rest).map (· + 1)

/-- `items.splice(idx, 1)`: remove the element at the given index. -/
def spliceOne : List Item → Nat → List Item
  | [], _ => []
  | _ :: rest, 0 => rest
  | x :: rest, n + 1 => x :: spliceOne rest n

/-- Mutation through the reference returned by `items.find`: update the first
element whose id matches, leave everything else alone. -/
def setFirst (id : Nat) (f : Item → Item) : List Item → List Item
  | [] => []
  | x :: rest => if x.id == id then f x :: rest else x :: setFirst id f rest

/-- Handler `GET /items` (server.js lines 181-186). -/
def getItems (st : ServerState) : Response :=
  { status := 200, headers := [("X-Demo", "items-list")],
    body := .listObj st.items.length st.items }

/-- Handler `GET /items/:id` (server.js lines 189-198); it does not change
the state. -/
def getItem (st : ServerState) (id : Nat) : Response :=
  match findItem st id with
  | none => notFoundResp id
  | some item =>
    { status := 200, headers := [("X-Demo", "items-get")], body := .itemObj item }

/-- Handler `POST /items` (server.js lines 218-238). -/
def postItems (st : ServerState) (body : ReqBody) : ServerState × Response :=
  match validName body.name with
  | none => (st, badReq "name is required (string)")
  | some t =>
    match validPrice body.price with
    | none => (st, badReq "price must be a non-negative number")
    | some q =>
      let item : Item := { id := st.nextId, name := t, price := q }
      ({ nextId := st.nextId + 1, items := st.items ++ [item] },
       { status := 201,
         headers := [("X-Demo", "items-create"), ("Location", "/items/" ++ toString item.id)],
         body := .itemObj item })

/-- Handler `PUT /items/:id` (server.js lines 241-263). -/
def putItem (st : ServerState) (id : Nat) (body : ReqBody) : ServerState × Response :=
  match findItem st id with
  | none => (st, notFoundResp id)
  | some existing =>
    match validName body.name with
    | none => (st, badReq "name is required (string)")
    | some t =>
      match validPrice body.price with
      | none => (st, badReq "price must be a non-negative number")
      | some q =>
        ({ st with items := setFirst id (fun it => { it with name := t, price := q }) st.items },
         { status := 200, headers := [("X-Demo", "items-put")],
           body := .itemObj { existing with name := t, price := q } })

/-- The price phase of the PATCH handler (server.js lines 283-291), entered
after the name phase; `st` and `existing` already reflect a name update. -/
def patchPrice (st : ServerState) (id : Nat) (existing : Item) (price : JSVal) :
    ServerState × Response :=
  match price with
  | .undef =>
    (st, { status := 200, headers := [("X-Demo", "items-patch")], body := .itemObj existing })
  | v =>
    match validPrice v with
    | none => (st, badReq "price must be a non-negative number")
    | some q =>
      ({ st with items := setFirst id (fun it => { it with price := q }) st.items },
       { status := 200, headers := [("X-Demo", "items-patch")],
         body := .itemObj { existing with price := q } })

/-- Handler `PATCH /items/:id` (server.js lines 266-292).  Note the in-place
name mutation happens before the price validation, exactly as in the source. -/
def patchItem (st : ServerState) (id : Nat) (body : ReqBody) : ServerState × Response :=
  match findItem st id with
  | none => (st, notFoundResp id)
  | some existing =>
    match body.name with
    | .undef => patchPrice st id existing body.price
    | v =>
      match validName v with
      | none => (st, badReq "name must be a non-empty string")
      | some t =>
        patchPrice { st with items := setFirst id (fun it => { it with name := t }) st.items }
          id { existing with name := t } body.price

/-- Handler `DELETE /items/:id` (server.js lines 295-307). -/
def deleteItem (st : ServerState) (id : Nat) : ServerState × Response :=
  match findIndexJs (fun x => x.id == id) st.items with
  | none => (st, notFoundResp id)
  | some idx =>
    ({ st with items := spliceOne st.items idx },
     { status := 204, headers := [("X-Demo", "items-delete")], body := .empty })

/-- Handler `GET /` (server.js lines 53-141).  The request's content
negotiation oracle `a` models `req.accepts(type)` of the framework
collaborator: whether the client's Accept header admits the given type. -/
def rootGet (a : String → Bool) : Response :=
  if a "text/plain" then
    { status := 200, headers := [("Content-Type", "text/plain")], body := .plainIndex }
  else if a "application/json" then
    { status := 200, headers := [("Content-Type", "application/json")], body := .jsonIndex }
  else if a "application/xml" then
    { status := 200, headers := [("Content-Type", "application/xml")], body := .xmlIndex }
  else if a "text/html" then
    { status := 200, headers := [("Content-Type", "text/html")], body := .htmlIndex }
  else
    { status := 406, headers := [], body := .text "Not Acceptable" }

/-- The state-mutating operations of the server (GET/HEAD/OPTIONS/echo leave
the state untouched and issue no ids, so traces of these four operations
cover all reachable states). -/
inductive Op where
  | create : ReqBody → Op
  | replace : Nat → ReqBody → Op
  | update : Nat → ReqBody → Op
  | remove : Nat → Op
deriving DecidableEq, Repr

/-- Apply one operation to the state. -/
def applyOp (st : ServerState) : Op → ServerState × Response
  | .create b => postItems st b
  | .replace i b => putItem st i b
  | .update i b => patchItem st i b
  | .remove i => deleteItem st i

/-- Run a sequence of operations from a state. -/
def runOps (st : ServerState) : List Op → ServerState
  | [] => st
  | op :: rest => runOps (applyOp st op).1 rest

/-- The ids issued by the successful creates of a trace, in order. -/
def issuedIds (st : ServerState) : List Op → List Nat
  | [] => []
  | op :: rest =>
    (match op with
     | .create _ => if ((applyOp st op).2).status = 201 then [st.nextId] else []
     | _ => []) ++ issuedIds (applyOp st op).1 rest

/-! ### Helper lemmas about the list operations -/

lemma find?_cons_true {p : Item → Bool} {x : Item} (rest : List Item) (h : p x = true) :
    (x :: rest).find? p = some x := by
  simp [List.find?, h]

lemma find?_cons_false {p : Item → Bool} {x : Item} (rest : List Item) (h : p x = false) :
    (x :: rest).find? p = rest.find? p := by
  simp [List.find?, h]

lemma setFirst_cons_pos {x : Item} {id : Nat} (f : Item → Item) (rest : List Item)
    (h : (x.id == id) = true) : setFirst id f (x :: rest) = f x :: rest := by
  simp [setFirst, h]

lemma setFirst_cons_neg {x : Item} {id : Nat} (f : Item → Item) (rest : List Item)
    (h : (x.id == id) = false) : setFirst id f (x :: rest) = x :: setFirst id f rest := by
  simp [setFirst, h]

lemma setFirst_map_id (id : Nat) (f : Item → Item) (hf : ∀ it, (f it).id = it.id) :
    ∀ l : List Item, (setFirst id f l).map Item.id = l.map Item.id := by
  intro l
  induction l with
  | nil => rfl
  | cons x rest ih =>
    cases h : (x.id == id) with
    | true => simp [setFirst_cons_pos f rest h, hf]
    | false => simp [setFirst_cons_neg f rest h, ih]

lemma setFirst_length (id : Nat) (f : Item → Item) :
    ∀ l : List Item, (setFirst id f l).length = l.length := by
  intro l
  induction l with
  | nil => rfl
  | cons x rest ih =>
    cases h : (x.id == id) with
    | true => simp [setFirst_cons_pos f rest h]
    | false => simp [setFirst_cons_neg f rest h, ih]

lemma setFirst_getElem? (id : Nat) (f : Item → Item) :
    ∀ (l : List Item) (i : Nat) (ex : Item), l[i]? = some ex → ex.id ≠ id →
      (setFirst id f l)[i]? = some ex := by
  intro l
  induction l with
  | nil => intro i ex hex; simp at hex
  | cons x rest ih =>
    intro i ex hex hne
    cases h : (x.id == id) with
    | true =>
      rw [setFirst_cons_pos f rest h]
      cases i with
      | zero =>
        have hx : x = ex := by simpa using hex
        exact absurd (by simpa [← hx] using h) hne
      | succ j => simpa using hex
    | false =>
      rw [setFirst_cons_neg f rest h]
      cases i with
      | zero => simpa using hex
      | succ j => exact by simpa using ih j ex (by simpa using hex) hne

lemma find?_setFirst (id : Nat) (f : Item → Item) (hf : ∀ it, (f it).id = it.id) :
    ∀ (l : List Item) (ex : Item), l.find? (fun x => x.id == id) = some ex →
      (setFirst id f l).find? (fun x => x.id == id) = some (f ex) := by
  intro l
  induction l with
  | nil => intro ex hex; simp [List.find?] at hex
  | cons x rest ih =>
    intro ex hex
    cases h : (x.id == id) with
    | true =>
      rw [find?_cons_true rest h] at hex
      have hx : x = ex := by simpa using hex
      subst hx
      rw [setFirst_cons_pos f rest h]
      exact find?_cons_true rest (by rw [hf]; exact h)
    | false =>
      rw [find?_cons_false rest h] at hex
      rw [setFirst_cons_neg f rest h, find?_cons_false _ h]
      exact ih ex hex

lemma spliceOne_sublist : ∀ (l : List Item) (n : Nat), (spliceOne l n).Sublist l := by
  intro l
  induction l with
  | nil => intro n; simp [spliceOne]
  | cons x rest ih =>
    intro n
    cases n with
    | zero => exact List.sublist_cons_self x rest
    | succ m => exact (ih m).cons₂ x

lemma findIndexJs_isSome_iff (p : Item → Bool) :
    ∀ l : List Item, (findIndexJs p l).isSome = (l.find? p).isSome := by
  intro l
  induction l with
  | nil => rfl
  | cons x rest ih =>
    cases h : p x with
    | true => simp [findIndexJs, h, find?_cons_true rest h]
    | false => simp [findIndexJs, h, find?_cons_false rest h, ih]

lemma spliceOne_findIndex_none (id : Nat) :
    ∀ (l : List Item), (l.map Item.id).Nodup →
      ∀ i, findIndexJs (fun x => x.id == id) l = some i →
        (spliceOne l i).find? (fun x => x.id == id) = none := by
  intro l
  induction l with
  | nil => intro _ i hi; simp [findIndexJs] at hi
  | cons x rest ih =>
    intro hnd i hi
    have hnd1 : ∀ a ∈ rest, ¬a.id = x.id := by
      intro a ha hcontra
      exact (List.nodup_cons.1 hnd).1 ((List.mem_map).2 ⟨a, ha, hcontra⟩)
    have hnd2 : (rest.map Item.id).Nodup := (List.nodup_cons.1 hnd).2
    cases h : (x.id == id) with
    | true =>
      have hi0 : i = 0 := by simp [findIndexJs, h] at hi; omega
      subst hi0
      have hxid : x.id = id := by simpa using h
      rw [show spliceOne (x :: rest) 0 = rest from rfl, List.find?_eq_none]
      intro a ha hpa
      have ha2 : a.id = id := by simpa using hpa
      exact hnd1 a ha (ha2.trans hxid.symm)
    | false =>
      simp only [findIndexJs, h, Bool.false_eq_true, if_false] at hi
      rcases hj : findIndexJs (fun x => x.id == id) rest with _ | j
      · rw [hj] at hi; simp at hi
      · rw [hj] at hi
        obtain rfl : j + 1 = i := by simpa using hi
        rw [show spliceOne (x :: rest) (j + 1) = x :: spliceOne rest j from rfl,
          find?_cons_false _ h]
        exact ih hnd2 j hj

/-! ### Shape lemmas about the handlers -/

lemma postItems_cases (st : ServerState) (body : ReqBody) :
    (postItems st body).1 = st ∧ (postItems st body).2.status = 400 ∨
    ∃ t q, validName body.name = some t ∧ validPrice body.price = some q ∧
      postItems st body =
        ({ nextId := st.nextId + 1,
           items := st.items ++ [{ id := st.nextId, name := t, price := q }] },
         { status := 201,
           headers := [("X-Demo", "items-create"),
                       ("Location", "/items/" ++ toString st.nextId)],
           body := .itemObj { id := st.nextId, name := t, price := q } }) := by
  rcases hn : validName body.name with _ | t
  · exact Or.inl (by simp [postItems, hn, badReq])
  · rcases hp : validPrice body.price with _ | q
    · exact Or.inl (by simp [postItems, hn, hp, badReq])
    · exact Or.inr ⟨t, q, rfl, rfl, by simp [postItems, hn, hp]⟩

lemma putItem_state (st : ServerState) (id : Nat) (body : ReqBody) :
    (putItem st id body).1 = st ∨
    ∃ t q, (putItem st id body).1 =
      { st with items := setFirst id (fun it => { it with name := t, price := q }) st.items } := by
  unfold putItem
  rcases findItem st id with _ | ex
  · simp
  · rcases validName body.name with _ | t
    · simp
    · rcases validPrice body.price with _ | q
      · simp
      · exact Or.inr ⟨t, q, rfl⟩

lemma patchPrice_state (st : ServerState) (id : Nat) (ex : Item) (price : JSVal) :
    (patchPrice st id ex price).1 = st ∨
    ∃ q, (patchPrice st id ex price).1 =
      { st with items := setFirst id (fun it => { it with price := q }) st.items } := by
  unfold patchPrice
  split
  · simp
  · split
    · simp
    · exact Or.inr ⟨_, rfl⟩

lemma patchItem_state (st : ServerState) (id : Nat) (body : ReqBody) :
    (patchItem st id body).1 = st ∨
    (∃ st1, ((patchItem st id body).1 = st1 ∨
        ∃ q, (patchItem st id body).1 =
          { st1 with items := setFirst id (fun it => { it with price := q }) st1.items }) ∧
      (st1 = st ∨
        ∃ t, st1 = { st with items := setFirst id (fun it => { it with name := t }) st.items })) := by
  unfold patchItem
  split
  · simp
  · split
    · exact Or.inr ⟨st, patchPrice_state st id _ body.price, Or.inl rfl⟩
    · split
      · simp
      · exact Or.inr ⟨_, patchPrice_state _ id _ body.price, Or.inr ⟨_, rfl⟩⟩

lemma deleteItem_state (st : ServerState) (id : Nat) :
    (deleteItem st id).1 = st ∨
    ∃ i, (deleteItem st id).1 = { st with items := spliceOne st.items i } := by
  unfold deleteItem
  rcases findIndexJs (fun x => x.id == id) st.items with _ | i
  · simp
  · exact Or.inr ⟨i, rfl⟩

/-! ### Counter monotonicity and the id invariant -/

lemma putItem_nextId (st : ServerState) (id : Nat) (body : ReqBody) :
    ((putItem st id body).1).nextId = st.nextId := by
  rcases putItem_state st id body with h | ⟨t, q, h⟩ <;> rw [h]

lemma patchItem_nextId (st : ServerState) (id : Nat) (body : ReqBody) :
    ((patchItem st id body).1).nextId = st.nextId := by
  rcases patchItem_state st id body with h | ⟨st1, h1, h2⟩
  · rw [h]
  · have hst1 : st1.nextId = st.nextId := by
      rcases h2 with h2 | ⟨t, h2⟩ <;> rw [h2]
    rcases h1 with h1 | ⟨q, h1⟩ <;> rw [h1] <;> exact hst1

lemma deleteItem_nextId (st : ServerState) (id : Nat) :
    ((deleteItem st id).1).nextId = st.nextId := by
  rcases deleteItem_state st id with h | ⟨i, h⟩ <;> rw [h]

lemma applyOp_nextId_mono (st : ServerState) (op : Op) :
    st.nextId ≤ ((applyOp st op).1).nextId := by
  cases op with
  | create b =>
    rcases postItems_cases st b with ⟨h, _⟩ | ⟨t, q, _, _, h⟩
    · exact le_of_eq (by rw [show applyOp st (.create b) = postItems st b from rfl, h])
    · rw [show applyOp st (.create b) = postItems st b from rfl, h]
      exact Nat.le_succ _
  | replace i b => exact le_of_eq (putItem_nextId st i b).symm
  | update i b => exact le_of_eq (patchItem_nextId st i b).symm
  | remove i => exact le_of_eq (deleteItem_nextId st i).symm

lemma putItem_map_id (st : ServerState) (id : Nat) (body : ReqBody) :
    ((putItem st id body).1).items.map Item.id = st.items.map Item.id := by
  rcases putItem_state st id body with h | ⟨t, q, h⟩
  · rw [h]
  · rw [h]
    exact setFirst_map_id id (fun it => { it with name := t, price := q }) (fun it => rfl) st.items

lemma patchItem_map_id (st : ServerState) (id : Nat) (body : ReqBody) :
    ((patchItem st id body).1).items.map Item.id = st.items.map Item.id := by
  rcases patchItem_state st id body with h | ⟨st1, h1, h2⟩
  · rw [h]
  · have hst1 : st1.items.map Item.id = st.items.map Item.id := by
      rcases h2 with h2 | ⟨t, h2⟩
      · rw [h2]
      · rw [h2]
        exact setFirst_map_id id (fun it => { it with name := t }) (fun it => rfl) st.items
    rcases h1 with h1 | ⟨q, h1⟩
    · rw [h1]; exact hst1
    · rw [h1]
      exact (setFirst_map_id id (fun it => { it with price := q }) (fun it => rfl) st1.items).trans hst1

/-- The id invariant: the collected ids are pairwise distinct and all below
the counter. -/
def StInv (st : ServerState) : Prop :=
  (st.items.map Item.id).Nodup ∧ ∀ i ∈ st.items.map Item.id, i < st.nextId

lemma seed_inv : StInv seedState := by
  constructor
  · decide
  · decide

lemma inv_applyOp (st : ServerState) (op : Op) (h : StInv st) : StInv ((applyOp st op).1) := by
  obtain ⟨hnd, hlt⟩ := h
  cases op with
  | create b =>
    rcases postItems_cases st b with ⟨heq, _⟩ | ⟨t, q, _, _, heq⟩
    · rw [show applyOp st (.create b) = postItems st b from rfl, heq]
      exact ⟨hnd, hlt⟩
    · rw [show applyOp st (.create b) = postItems st b from rfl, heq]
      constructor
      · simp only [List.map_append, List.map_cons, List.map_nil]
        rw [List.nodup_append]
        refine ⟨hnd, List.nodup_singleton _, ?_⟩
        intro a ha hb
        have : a = st.nextId := by simpa using hb
        exact absurd (hlt a ha) (by omega)
      · intro i hi
        simp only [List.map_append, List.map_cons, List.map_nil, List.mem_append] at hi
        rcases hi with hi | hi
        · exact Nat.lt_succ_of_lt (hlt i hi)
        · have : i = st.nextId := by simpa using hi
          exact this ▸ Nat.lt_succ_self st.nextId
  | replace i b =>
    refine ⟨?_, ?_⟩
    · rw [show applyOp st (.replace i b) = putItem st i b from rfl, putItem_map_id]
      exact hnd
    · intro j hj
      rw [show applyOp st (.replace i b) = putItem st i b from rfl, putItem_map_id] at hj
      rw [show applyOp st (.replace i b) = putItem st i b from rfl, putItem_nextId]
      exact hlt j hj
  | update i b =>
    refine ⟨?_, ?_⟩
    · rw [show applyOp st (.update i b) = patchItem st i b from rfl, patchItem_map_id]
      exact hnd
    · intro j hj
      rw [show applyOp st (.update i b) = patchItem st i b from rfl, patchItem_map_id] at hj
      rw [show applyOp st (.update i b) = patchItem st i b from rfl, patchItem_nextId]
      exact hlt j hj
  | remove i =>
    rcases deleteItem_state st i with heq | ⟨k, heq⟩
    · rw [show applyOp st (.remove i) = deleteItem st i from rfl, heq]
      exact ⟨hnd, hlt⟩
    · rw [show applyOp st (.remove i) = deleteItem st i from rfl, heq]
      have hsub : (spliceOne st.items k).Sublist st.items := spliceOne_sublist st.items k
      refine ⟨hnd.sublist (hsub.map Item.id), ?_⟩
      intro j hj
      exact hlt j ((hsub.map Item.id).subset hj)

lemma inv_runOps : ∀ (ops : List Op) (st : ServerState), StInv st → StInv (runOps st ops) := by
  intro ops
  induction ops with
  | nil => intro st h; exact h
  | cons op rest ih => intro st h; exact ih _ (inv_applyOp st op h)

lemma postItems_201_nextId (st : ServerState) (body : ReqBody)
    (h : (postItems st body).2.status = 201) :
    ((postItems st body).1).nextId = st.nextId + 1 := by
  rcases postItems_cases st body with ⟨_, h2⟩ | ⟨t, q, _, _, heq⟩
  · rw [h2] at h; omega
  · rw [heq]

lemma issued_lb : ∀ (ops : List Op) (st : ServerState) (i : Nat),
    i ∈ issuedIds st ops → st.nextId ≤ i := by
  intro ops
  induction ops with
  | nil => intro st i hi; simp [issuedIds] at hi
  | cons op rest ih =>
    intro st i hi
    have htail : i ∈ issuedIds ((applyOp st op).1) rest → st.nextId ≤ i := fun h =>
      le_trans (applyOp_nextId_mono st op) (ih _ i h)
    cases op with
    | create b =>
      by_cases h : ((applyOp st (.create b)).2).status = 201
      · simp only [issuedIds, h, if_true, List.mem_append] at hi
        rcases hi with hi | hi
        · have : i = st.nextId := by simpa using hi
          omega
        · exact htail hi
      · simp only [issuedIds, h, if_false, List.nil_append] at hi
        exact htail hi
    | replace j b => exact htail (by simpa [issuedIds] using hi)
    | update j b => exact htail (by simpa [issuedIds] using hi)
    | remove j => exact htail (by simpa [issuedIds] using hi)

lemma issued_pairwise : ∀ (ops : List Op) (st : ServerState),
    List.Pairwise (fun a b => a < b) (issuedIds st ops) := by
  intro ops
  induction ops with
  | nil => intro st; simp [issuedIds]
  | cons op rest ih =>
    intro st
    cases op with
    | create b =>
      by_cases h : ((applyOp st (.create b)).2).status = 201
      · have hnext : ((applyOp st (.create b)).1).nextId = st.nextId + 1 :=
          postItems_201_nextId st b h
        simp only [issuedIds, h, if_true]
        rw [List.singleton_append, List.pairwise_cons]
        refine ⟨?_, ih _⟩
        intro j hj
        have := issued_lb rest _ j hj
        omega
      · simp only [issuedIds, h, if_false, List.nil_append]
        exact ih _
    | replace j b => simpa [issuedIds] using ih _
    | update j b => simpa [issuedIds] using ih _
    | remove j => simpa [issuedIds] using ih _

/-- C2: in every state reachable from the seed state by any sequence of
mutating operations, the collection's ids are pairwise distinct; and the id
sequence consisting of the seed ids 1, 2 followed by the ids returned by the
successful creates of the trace is strictly increasing, so every successful
create returns an id strictly greater than every previously issued id and
ids are never reused (deletes included, since `Op.remove` is in the
operation alphabet). -/
theorem ids_unique_monotone (ops : List Op) :
    (((runOps seedState ops).items.map Item.id).Nodup) ∧
    List.Pairwise (fun i j => i < j) ([1, 2] ++ issuedIds seedState ops) := by
  constructor
  · exact (inv_runOps ops seedState seed_inv).1
  · rw [List.pairwise_append]
    refine ⟨by decide, issued_pairwise ops seedState, ?_⟩
    intro i hi j hj
    have hj3 : seedState.nextId ≤ j := issued_lb ops seedState j hj
    have h3 : seedState.nextId = 3 := rfl
    have hi2 : i = 1 ∨ i = 2 := by simpa using hi
    rcases hi2 with rfl | rfl <;> omega

/-! ### The claims about the individual handlers -/

/-- C1: Create validates `name` (must be a string, non-empty after trimming)
then `price` (must coerce to a finite non-negative number), answering 400
`bad_request` with a message naming the offending field; on success it
appends `{id: next id, name: trimmed name, price: coerced price}` and
answers 201 with a `Location: /items/<id>` header.  The final conjuncts are
the claimed boundary cases: price 0 accepted, price -0.01 and non-numeric
price rejected, name `"   "` rejected, name `"  Pen  "` stored as `"Pen"`. -/
theorem create_spec (st : ServerState) (body : ReqBody) :
    (validName body.name = none →
      postItems st body = (st, badReq "name is required (string)")) ∧
    (∀ t, validName body.name = some t → validPrice body.price = none →
      postItems st body = (st, badReq "price must be a non-negative number")) ∧
    (∀ t q, validName body.name = some t → validPrice body.price = some q →
      postItems st body =
        ({ nextId := st.nextId + 1,
           items := st.items ++ [{ id := st.nextId, name := t, price := q }] },
         { status := 201,
           headers := [("X-Demo", "items-create"),
                       ("Location", "/items/" ++ toString st.nextId)],
           body := .itemObj { id := st.nextId, name := t, price := q } })) ∧
    validPrice (.num (.fin 0)) = some 0 ∧
    validPrice (.num (.fin (-1 / 100))) = none ∧
    validPrice (.str "abc") = none ∧
    validName (.str "   ") = none ∧
    validName (.str "  Pen  ") = some "Pen" := by
  refine ⟨?_, ?_, ?_, ?_, ?_, ?_, ?_, ?_⟩
  · intro h; simp [postItems, h]
  · intro t hn hp; simp [postItems, hn, hp]
  · intro t q hn hp; simp [postItems, hn, hp]
  · simp [validPrice, toNumber]
  · simp [validPrice, toNumber]
    norm_num
  · decide
  · decide
  · decide

/-- Witness for C1: creating `{name: "  Pen  ", price: 0}` in the seed state
succeeds with id 3, stored name `"Pen"` and price 0. -/
theorem create_spec_witness :
    postItems seedState { name := .str "  Pen  ", price := .num (.fin 0) } =
      ({ nextId := 4,
         items := seedState.items ++ [{ id := 3, name := "Pen", price := 0 }] },
       { status := 201,
         headers := [("X-Demo", "items-create"), ("Location", "/items/3")],
         body := .itemObj { id := 3, name := "Pen", price := 0 } }) := by
  have h := (create_spec seedState { name := .str "  Pen  ", price := .num (.fin 0) }).2.2.1
    "Pen" 0 (by decide) (by simp [validPrice, toNumber])
  simpa using h

lemma validName_some_str {v : JSVal} {t : String} (h : validName v = some t) :
    ∃ s, v = .str s ∧ jsTrim s = t := by
  rcases v with _ | _ | b | n | s <;> simp [validName] at h
  exact ⟨s, rfl, h.2⟩

lemma patchPrice_undef (st : ServerState) (id : Nat) (ex : Item) :
    patchPrice st id ex .undef =
      (st, { status := 200, headers := [("X-Demo", "items-patch")], body := .itemObj ex }) := rfl

lemma patchPrice_present_invalid (st : ServerState) (id : Nat) (ex : Item) {v : JSVal}
    (hne : v ≠ .undef) (hp : validPrice v = none) :
    patchPrice st id ex v = (st, badReq "price must be a non-negative number") := by
  rcases v with _ | _ | b | n | s
  · exact absurd rfl hne
  all_goals simp [patchPrice, hp]

lemma patchPrice_present_valid (st : ServerState) (id : Nat) (ex : Item) {v : JSVal} {q : ℚ}
    (hne : v ≠ .undef) (hp : validPrice v = some q) :
    patchPrice st id ex v =
      ({ st with items := setFirst id (fun it => { it with price := q }) st.items },
       { status := 200, headers := [("X-Demo", "items-patch")],
         body := .itemObj { ex with price := q } }) := by
  rcases v with _ | _ | b | n | s
  · exact absurd rfl hne
  all_goals simp [patchPrice, hp]

lemma patchItem_not_found (st : ServerState) (id : Nat) (body : ReqBody)
    (hfind : findItem st id = none) :
    patchItem st id body = (st, notFoundResp id) := by
  simp [patchItem, hfind]

lemma patchItem_found_name_undef (st : ServerState) (id : Nat) (ex : Item) (body : ReqBody)
    (hfind : findItem st id = some ex) (hbn : body.name = .undef) :
    patchItem st id body = patchPrice st id ex body.price := by
  simp [patchItem, hfind, hbn]

lemma patchItem_found_name_invalid (st : ServerState) (id : Nat) (ex : Item) (body : ReqBody)
    (hfind : findItem st id = some ex) (hne : body.name ≠ .undef)
    (hn : validName body.name = none) :
    patchItem st id body = (st, badReq "name must be a non-empty string") := by
  rcases hbn : body.name with _ | _ | b | n | s
  · exact absurd hbn hne
  all_goals rw [hbn] at hn
  all_goals simp [patchItem, hfind, hbn, hn]

lemma patchItem_found_name_valid (st : ServerState) (id : Nat) (ex : Item) (body : ReqBody)
    (t : String) (hfind : findItem st id = some ex) (hn : validName body.name = some t) :
    patchItem st id body =
      patchPrice { st with items := setFirst id (fun it => { it with name := t }) st.items }
        id { ex with name := t } body.price := by
  obtain ⟨s, hbn, hts⟩ := validName_some_str hn
  rw [hbn] at hn
  simp [patchItem, hfind, hbn, hn]

/-- C3: PartialUpdate answers 404 when the id is absent; each of
`name`/`price` that is present in the body is validated with the Create rule
and applied (trimmed / coerced), an absent field keeps the existing value;
on success it answers 200 with the updated item.  The last conjunct is the
claimed scenario: PATCH `{price:5.25}` on seed item 1 yields
`{id:1, name:"Notebook", price:5.25}` with the name unchanged. -/
theorem patch_spec (st : ServerState) (id : Nat) (body : ReqBody) :
    (findItem st id = none → patchItem st id body = (st, notFoundResp id)) ∧
    (∀ ex, findItem st id = some ex → body.name ≠ .undef → validName body.name = none →
      patchItem st id body = (st, badReq "name must be a non-empty string")) ∧
    (∀ ex, findItem st id = some ex → body.name = .undef → body.price ≠ .undef →
      validPrice body.price = none →
      patchItem st id body = (st, badReq "price must be a non-negative number")) ∧
    (∀ ex t, findItem st id = some ex → validName body.name = some t → body.price ≠ .undef →
      validPrice body.price = none →
      (patchItem st id body).2 = badReq "price must be a non-negative number") ∧
    (∀ ex, findItem st id = some ex → body.name = .undef → body.price = .undef →
      patchItem st id body =
        (st, { status := 200, headers := [("X-Demo", "items-patch")], body := .itemObj ex })) ∧
    (∀ ex t, findItem st id = some ex → validName body.name = some t → body.price = .undef →
      patchItem st id body =
        ({ st with items := setFirst id (fun it => { it with name := t }) st.items },
         { status := 200, headers := [("X-Demo", "items-patch")],
           body := .itemObj { ex with name := t } })) ∧
    (∀ ex q, findItem st id = some ex → body.name = .undef → body.price ≠ .undef →
      validPrice body.price = some q →
      patchItem st id body =
        ({ st with items := setFirst id (fun it => { it with price := q }) st.items },
         { status := 200, headers := [("X-Demo", "items-patch")],
           body := .itemObj { ex with price := q } })) ∧
    (∀ ex t q, findItem st id = some ex → validName body.name = some t → body.price ≠ .undef →
      validPrice body.price = some q →
      patchItem st id body =
        ({ st with items := (setFirst id (fun it => { it with price := q })
             (setFirst id (fun it => { it with name := t }) st.items)) },
         { status := 200, headers := [("X-Demo", "items-patch")],
           body := .itemObj { ex with name := t, price := q } })) ∧
    patchItem seedState 1 { name := .undef, price := .num (.fin 5.25) } =
      ({ nextId := 3,
         items := [{ id := 1, name := "Notebook", price := 5.25 },
                   { id := 2, name := "Pen", price := 1.25 }] },
       { status := 200, headers := [("X-Demo", "items-patch")],
         body := .itemObj { id := 1, name := "Notebook", price := 5.25 } }) := by
  refine ⟨?_, ?_, ?_, ?_, ?_, ?_, ?_, ?_, ?_⟩
  · exact patchItem_not_found st id body
  · intro ex hfind hne hn
    exact patchItem_found_name_invalid st id ex body hfind hne hn
  · intro ex hfind hbn hpne hp
    rw [patchItem_found_name_undef st id ex body hfind hbn]
    exact patchPrice_present_invalid st id ex hpne hp
  · intro ex t hfind hn hpne hp
    rw [patchItem_found_name_valid st id ex body t hfind hn]
    rw [patchPrice_present_invalid _ id _ hpne hp]
  · intro ex hfind hbn hbp
    rw [patchItem_found_name_undef st id ex body hfind hbn, hbp]
    exact patchPrice_undef st id ex
  · intro ex t hfind hn hbp
    rw [patchItem_found_name_valid st id ex body t hfind hn, hbp]
    exact patchPrice_undef _ id _
  · intro ex q hfind hbn hpne hp
    rw [patchItem_found_name_undef st id ex body hfind hbn]
    exact patchPrice_present_valid st id ex hpne hp
  · intro ex t q hfind hn hpne hp
    rw [patchItem_found_name_valid st id ex body t hfind hn]
    exact patchPrice_present_valid _ id _ hpne hp
  · rw [patchItem_found_name_undef seedState 1
      { id := 1, name := "Notebook", price := 4.5 } _ (by simp [findItem, seedState]) rfl]
    rw [@patchPrice_present_valid _ 1 _ _ (5.25 : ℚ) (by simp) (by norm_num [validPrice, toNumber])]
    simp [seedState, setFirst]

/-- Witness for C3: PATCH `{price:5.25}` on seed item 1 answers 200 with
`{id:1, name:"Notebook", price:5.25}`. -/
theorem patch_spec_witness :
    (patchItem seedState 1 { name := .undef, price := .num (.fin 5.25) }).2 =
      { status := 200, headers := [("X-Demo", "items-patch")],
        body := .itemObj { id := 1, name := "Notebook", price := 5.25 } } := by
  have h := (patch_spec seedState 1 { name := .undef, price := .num (.fin 5.25) }).2.2.2.2.2.2.1
    { id := 1, name := "Notebook", price := 4.5 } (5.25 : ℚ)
    (by simp [findItem, seedState]) rfl (by simp) (by norm_num [validPrice, toNumber])
  rw [h]

/-- C4: PartialUpdate is not atomic on validation error.  When the item
exists and the body carries a valid `name` together with a present but
invalid `price`, the handler answers 400 — yet the item in the collection
already carries the new trimmed name, because the source mutates
`existing.name` before validating `price`. -/
theorem patch_not_atomic (st : ServerState) (id : Nat) (body : ReqBody) (ex : Item) (t : String)
    (hfind : findItem st id = some ex)
    (hn : validName body.name = some t)
    (hpne : body.price ≠ .undef)
    (hp : validPrice body.price = none) :
    (patchItem st id body).2 = badReq "price must be a non-negative number" ∧
    findItem ((patchItem st id body).1) id = some { ex with name := t } := by
  rw [patchItem_found_name_valid st id ex body t hfind hn,
    patchPrice_present_invalid _ id _ hpne hp]
  refine ⟨rfl, ?_⟩
  exact find?_setFirst id (fun it => { it with name := t }) (fun it => rfl) st.items ex hfind

/-- Witness for C4: PATCH `{name:"  NewName ", price:"abc"}` on seed item 1
answers 400 but leaves the stored name changed to `"NewName"`. -/
theorem patch_not_atomic_witness :
    (patchItem seedState 1 { name := .str "  NewName ", price := .str "abc" }).2 =
      badReq "price must be a non-negative number" ∧
    findItem ((patchItem seedState 1 { name := .str "  NewName ", price := .str "abc" }).1) 1 =
      some { id := 1, name := "NewName", price := 4.5 } := by
  have h := patch_not_atomic seedState 1 { name := .str "  NewName ", price := .str "abc" }
    { id := 1, name := "Notebook", price := 4.5 } "NewName"
    (by simp [findItem, seedState]) (by decide) (by simp) (by decide)
  simpa using h

/-- C6: Replace answers 404 when the id is absent, before any validation (the
final conjunct shows an absent id with an invalid body still yields 404, not
400); otherwise both fields are validated exactly as in Create, a violation
yielding 400; on success only `name` and `price` of the existing item are
overwritten in place and the handler answers 200 with the updated item. -/
theorem replace_spec (st : ServerState) (id : Nat) (body : ReqBody) :
    (findItem st id = none → putItem st id body = (st, notFoundResp id)) ∧
    (∀ ex, findItem st id = some ex → validName body.name = none →
      putItem st id body = (st, badReq "name is required (string)")) ∧
    (∀ ex t, findItem st id = some ex → validName body.name = some t →
      validPrice body.price = none →
      putItem st id body = (st, badReq "price must be a non-negative number")) ∧
    (∀ ex t q, findItem st id = some ex → validName body.name = some t →
      validPrice body.price = some q →
      putItem st id body =
        ({ st with items := setFirst id (fun it => { it with name := t, price := q }) st.items },
         { status := 200, headers := [("X-Demo", "items-put")],
           body := .itemObj { ex with name := t, price := q } })) ∧
    putItem seedState 99 { name := .undef, price := .undef } = (seedState, notFoundResp 99) := by
  refine ⟨?_, ?_, ?_, ?_, ?_⟩
  · intro h; simp [putItem, h]
  · intro ex hfind hn; simp [putItem, hfind, hn]
  · intro ex t hfind hn hp; simp [putItem, hfind, hn, hp]
  · intro ex t q hfind hn hp; simp [putItem, hfind, hn, hp]
  · simp [putItem, findItem, seedState]

/-- Witness for C6: PUT `{name:" Binder ", price:2}` on seed item 1 answers
200 and overwrites name and price in place. -/
theorem replace_spec_witness :
    putItem seedState 1 { name := .str " Binder ", price := .num (.fin 2) } =
      ({ nextId := 3,
         items := [{ id := 1, name := "Binder", price := 2 },
                   { id := 2, name := "Pen", price := 1.25 }] },
       { status := 200, headers := [("X-Demo", "items-put")],
         body := .itemObj { id := 1, name := "Binder", price := 2 } }) := by
  have h := (replace_spec seedState 1 { name := .str " Binder ", price := .num (.fin 2) }).2.2.2.1
    { id := 1, name := "Notebook", price := 4.5 } "Binder" 2
    (by simp [findItem, seedState]) (by decide) (by norm_num [validPrice, toNumber])
  simpa [seedState, setFirst] using h

/-- C5: the root handler chooses the response format by probing the client's
acceptable types in the fixed priority order plain text, JSON, XML, HTML,
answering 200 with the endpoint index in the first acceptable format, and
406 when none of the four is acceptable.  The oracle `a` models
`req.accepts` of the framework; the final conjuncts are the claimed
scenarios for `Accept: application/json` and `Accept: application/x-foo`. -/
theorem root_negotiation (a : String → Bool) :
    (a "text/plain" = true →
      rootGet a = { status := 200, headers := [("Content-Type", "text/plain")],
                    body := .plainIndex }) ∧
    (a "text/plain" = false → a "application/json" = true →
      rootGet a = { status := 200, headers := [("Content-Type", "application/json")],
                    body := .jsonIndex }) ∧
    (a "text/plain" = false → a "application/json" = false → a "application/xml" = true →
      rootGet a = { status := 200, headers := [("Content-Type", "application/xml")],
                    body := .xmlIndex }) ∧
    (a "text/plain" = false → a "application/json" = false → a "application/xml" = false →
      a "text/html" = true →
      rootGet a = { status := 200, headers := [("Content-Type", "text/html")],
                    body := .htmlIndex }) ∧
    (a "text/plain" = false → a "application/json" = false → a "application/xml" = false →
      a "text/html" = false →
      rootGet a = { status := 406, headers := [], body := .text "Not Acceptable" }) ∧
    rootGet (fun t => t == "application/json") =
      { status := 200, headers := [("Content-Type", "application/json")],
        body := .jsonIndex } ∧
    rootGet (fun t => t == "application/x-foo") =
      { status := 406, headers := [], body := .text "Not Acceptable" } := by
  refine ⟨?_, ?_, ?_, ?_, ?_, ?_, ?_⟩
  · intro h1; simp [rootGet, h1]
  · intro h1 h2; simp [rootGet, h1, h2]
  · intro h1 h2 h3; simp [rootGet, h1, h2, h3]
  · intro h1 h2 h3 h4; simp [rootGet, h1, h2, h3, h4]
  · intro h1 h2 h3 h4; simp [rootGet, h1, h2, h3, h4]
  · decide
  · decide

/-- Witness for C5: a client accepting only plain text gets the plain-text
index. -/
theorem root_negotiation_witness :
    rootGet (fun t => t == "text/plain") =
      { status := 200, headers := [("Content-Type", "text/plain")], body := .plainIndex } :=
  (root_negotiation (fun t => t == "text/plain")).1 (by decide)

/-- C7: deleting an existing id answers 204 with no body and removes the
item; afterwards both GET and DELETE on that id answer with the identical
404 body `{error:"not_found", message:"No item with id <id>"}`, and neither
changes the collection (GET never touches the state, and the second DELETE
returns the state unchanged).  The distinct-ids hypothesis holds in every
reachable state (`ids_unique_monotone`). -/
theorem delete_idempotent (st : ServerState) (id : Nat) (ex : Item)
    (hnd : (st.items.map Item.id).Nodup) (hex : findItem st id = some ex) :
    ∃ st2, deleteItem st id =
        (st2, { status := 204, headers := [("X-Demo", "items-delete")], body := .empty }) ∧
      findItem st2 id = none ∧
      getItem st2 id = notFoundResp id ∧
      deleteItem st2 id = (st2, notFoundResp id) ∧
      notFoundResp id =
        { status := 404, headers := [],
          body := .errObj "not_found" ("No item with id " ++ toString id) } := by
  have hsome : (findIndexJs (fun x => x.id == id) st.items).isSome = true := by
    rw [findIndexJs_isSome_iff]
    rw [show (st.items.find? fun x => x.id == id) = findItem st id from rfl, hex]
    rfl
  rcases hidx : findIndexJs (fun x => x.id == id) st.items with _ | i
  · rw [hidx] at hsome; simp at hsome
  refine ⟨{ st with items := spliceOne st.items i }, ?_, ?_, ?_, ?_, rfl⟩
  · simp [deleteItem, hidx]
  · exact spliceOne_findIndex_none id st.items hnd i hidx
  · have h2 : findItem { st with items := spliceOne st.items i } id = none :=
      spliceOne_findIndex_none id st.items hnd i hidx
    simp [getItem, h2]
  · have h2 : findItem { st with items := spliceOne st.items i } id = none :=
      spliceOne_findIndex_none id st.items hnd i hidx
    have h3 : (findIndexJs (fun x => x.id == id) (spliceOne st.items i)).isSome = false := by
      rw [findIndexJs_isSome_iff]
      rw [show ((spliceOne st.items i).find? fun x => x.id == id) =
        findItem { st with items := spliceOne st.items i } id from rfl, h2]
      rfl
    rcases h4 : findIndexJs (fun x => x.id == id) (spliceOne st.items i) with _ | j
    · simp [deleteItem, h4]
    · rw [h4] at h3; simp at h3

/-- Witness for C7: DELETE then GET/DELETE of seed item 2. -/
theorem delete_idempotent_witness :
    ∃ st2, deleteItem seedState 2 =
        (st2, { status := 204, headers := [("X-Demo", "items-delete")], body := .empty }) ∧
      findItem st2 2 = none ∧
      getItem st2 2 = notFoundResp 2 ∧
      deleteItem st2 2 = (st2, notFoundResp 2) ∧
      notFoundResp 2 =
        { status := 404, headers := [],
          body := .errObj "not_found" ("No item with id " ++ toString 2) } :=
  delete_idempotent seedState 2 { id := 2, name := "Pen", price := 1.25 }
    (by decide) (by simp [findItem, seedState])

lemma find?_append_of_none {p : Item → Bool} :
    ∀ l1 l2 : List Item, l1.find? p = none → (l1 ++ l2).find? p = l2.find? p := by
  intro l1
  induction l1 with
  | nil => intro l2 _; rfl
  | cons x rest ih =>
    intro l2 h
    have hx : p x = false := by
      rcases hpx : p x with _ | _
      · rfl
      · rw [find?_cons_true rest hpx] at h; simp at h
    rw [find?_cons_false rest hx] at h
    rw [List.cons_append, find?_cons_false (rest ++ l2) hx]
    exact ih l2 h

/-- C8: round-trip.  For every valid input (name valid per the shared rule
with trimmed value `t`, price coercing to the finite non-negative `q`),
Create answers 201 with the new item, and a Get on the returned id answers
200 with a body whose name is the trimmed input name and whose price is the
coerced numeric input price.  The bound hypothesis holds in every reachable
state (it is the second half of the id invariant). -/
theorem create_get_roundtrip (st : ServerState) (body : ReqBody) (t : String) (q : ℚ)
    (hb : ∀ it ∈ st.items, it.id < st.nextId)
    (hn : validName body.name = some t) (hp : validPrice body.price = some q) :
    (postItems st body).2.status = 201 ∧
    (postItems st body).2.body = .itemObj { id := st.nextId, name := t, price := q } ∧
    getItem ((postItems st body).1) st.nextId =
      { status := 200, headers := [("X-Demo", "items-get")],
        body := .itemObj { id := st.nextId, name := t, price := q } } := by
  have hnone : st.items.find? (fun x => x.id == st.nextId) = none := by
    rw [List.find?_eq_none]
    intro a ha hpa
    have h1 := hb a ha
    have h2 : a.id = st.nextId := by simpa using hpa
    omega
  have hst : (postItems st body).1 =
      { nextId := st.nextId + 1,
        items := st.items ++ [{ id := st.nextId, name := t, price := q }] } := by
    simp [postItems, hn, hp]
  have hfind : findItem ((postItems st body).1) st.nextId =
      some { id := st.nextId, name := t, price := q } := by
    rw [hst]
    unfold findItem
    rw [find?_append_of_none _ _ hnone]
    exact find?_cons_true [] (by simp)
  refine ⟨by simp [postItems, hn, hp], by simp [postItems, hn, hp], ?_⟩
  simp [getItem, hfind]

/-- Witness for C8: create `{name:"Marker", price:2.75}` in the seed state,
then fetch id 3. -/
theorem create_get_roundtrip_witness :
    (postItems seedState { name := .str "Marker", price := .num (.fin 2.75) }).2.status = 201 ∧
    (postItems seedState { name := .str "Marker", price := .num (.fin 2.75) }).2.body =
      .itemObj { id := 3, name := "Marker", price := 2.75 } ∧
    getItem ((postItems seedState { name := .str "Marker", price := .num (.fin 2.75) }).1) 3 =
      { status := 200, headers := [("X-Demo", "items-get")],
        body := .itemObj { id := 3, name := "Marker", price := 2.75 } } := by
  have h := create_get_roundtrip seedState { name := .str "Marker", price := .num (.fin 2.75) }
    "Marker" 2.75 (by decide) (by decide) (by norm_num [validPrice, toNumber])
  simpa using h

/-- The frame of a replace/partial-update on item `id`: counter unchanged,
collection size and id sequence (hence insertion order) unchanged, and every
position holding an item with a different id is untouched. -/
def Frame (st st2 : ServerState) (id : Nat) : Prop :=
  st2.nextId = st.nextId ∧
  st2.items.length = st.items.length ∧
  st2.items.map Item.id = st.items.map Item.id ∧
  ∀ (i : Nat) (ex : Item), st.items[i]? = some ex → ex.id ≠ id → st2.items[i]? = some ex

lemma frame_refl (st : ServerState) (id : Nat) : Frame st st id :=
  ⟨rfl, rfl, rfl, fun _ _ h _ => h⟩

lemma frame_setFirst (st : ServerState) (id : Nat) (f : Item → Item)
    (hf : ∀ it, (f it).id = it.id) :
    Frame st { st with items := setFirst id f st.items } id :=
  ⟨rfl, setFirst_length id f st.items, setFirst_map_id id f hf st.items,
   fun i ex h hne => setFirst_getElem? id f st.items i ex h hne⟩

lemma frame_trans {st st2 st3 : ServerState} {id : Nat}
    (h1 : Frame st st2 id) (h2 : Frame st2 st3 id) : Frame st st3 id := by
  obtain ⟨a1, b1, c1, d1⟩ := h1
  obtain ⟨a2, b2, c2, d2⟩ := h2
  exact ⟨a2.trans a1, b2.trans b1, c2.trans c1, fun i ex h hne => d2 i ex (d1 i ex h hne) hne⟩

/-- C9: frame condition for Replace and PartialUpdate.  Whatever the outcome
equality says about a 200 answer, the resulting state satisfies `Frame`:
the id counter is unchanged, the collection's length and id sequence (hence
insertion order and the targeted item's id) are unchanged, and every item
with a different id sits untouched at its original position. -/
theorem update_frame (st : ServerState) (id : Nat) (body : ReqBody) :
    (∀ st2 r, putItem st id body = (st2, r) → r.status = 200 → Frame st st2 id) ∧
    (∀ st2 r, patchItem st id body = (st2, r) → r.status = 200 → Frame st st2 id) := by
  constructor
  · intro st2 r heq _
    have hst2 : st2 = (putItem st id body).1 := by rw [heq]
    rcases putItem_state st id body with h | ⟨t, q, h⟩
    · rw [hst2, h]
      exact frame_refl st id
    · rw [hst2, h]
      exact frame_setFirst st id _ (fun it => rfl)
  · intro st2 r heq _
    have hst2 : st2 = (patchItem st id body).1 := by rw [heq]
    rcases patchItem_state st id body with h | ⟨st1, h1, h2⟩
    · rw [hst2, h]
      exact frame_refl st id
    · have f1 : Frame st st1 id := by
        rcases h2 with h2 | ⟨t, h2⟩
        · rw [h2]
          exact frame_refl st id
        · rw [h2]
          exact frame_setFirst st id _ (fun it => rfl)
      rcases h1 with h1 | ⟨q, h1⟩
      · rw [hst2, h1]
        exact f1
      · rw [hst2, h1]
        exact frame_trans f1 (frame_setFirst st1 id _ (fun it => rfl))

/-- Witness for C9: a successful PUT on seed item 1 satisfies the frame. -/
theorem update_frame_witness :
    Frame seedState
      ((putItem seedState 1 { name := .str "Binder", price := .num (.fin 0) }).1) 1 :=
  (update_frame seedState 1 { name := .str "Binder", price := .num (.fin 0) }).1 _ _ rfl
    (by decide)

/-- C10: price validation works on the `Number()`-coerced value, so Create,
Replace and PartialUpdate accept non-numeric prices that coerce to a finite
non-negative number — null, the empty string, true/false, a whitespace
string, a numeric string — storing the coerced number; exactly the values
coercing to NaN, an infinity or a negative number are rejected (and by
`create_spec`/`replace_spec`/`patch_spec` a rejected price yields 400).  The
last three conjuncts exercise the three handlers: Create stores 0 for a null
price, Replace stores 0 for price `""`, PartialUpdate stores 2.75 for price
`"2.75"`. -/
theorem price_coercion :
    validPrice .null = some 0 ∧
    validPrice (.str "") = some 0 ∧
    validPrice (.bool true) = some 1 ∧
    validPrice (.bool false) = some 0 ∧
    validPrice (.str "   ") = some 0 ∧
    validPrice (.str "2.75") = some (11 / 4) ∧
    (∀ v : JSVal, validPrice v = none ↔
      (toNumber v = .nan ∨ toNumber v = .posInf ∨ toNumber v = .negInf ∨
        ∃ q : ℚ, q < 0 ∧ toNumber v = .fin q)) ∧
    (postItems seedState { name := .str "Pencil", price := .null }).2 =
      { status := 201, headers := [("X-Demo", "items-create"), ("Location", "/items/3")],
        body := .itemObj { id := 3, name := "Pencil", price := 0 } } ∧
    (putItem seedState 1 { name := .str "Notebook", price := .str "" }).1.items =
      [{ id := 1, name := "Notebook", price := 0 },
       { id := 2, name := "Pen", price := 1.25 }] ∧
    (patchItem seedState 1 { name := .undef, price := .str "2.75" }).1.items =
      [{ id := 1, name := "Notebook", price := 11 / 4 },
       { id := 2, name := "Pen", price := 1.25 }] := by
  refine ⟨by decide, by decide, by decide, by decide, by decide, ?_, ?_, ?_, ?_, ?_⟩
  · simp [validPrice, toNumber, strToNumber, parseUnsigned, parseExpTail, jsTrimList,
      isJsWhitespace, digitsToNat]
    norm_num
  · intro v
    unfold validPrice
    rcases h : toNumber v with _ | _ | _ | q <;> simp [h]
  · simp [postItems, seedState, validName, jsTrim, jsTrimList, isJsWhitespace,
      validPrice, toNumber]
    decide
  · simp [putItem, findItem, seedState, validName, jsTrim, jsTrimList, isJsWhitespace,
      validPrice, toNumber, strToNumber, setFirst]
  · simp [patchItem, patchPrice, findItem, seedState, validPrice, toNumber, strToNumber,
      parseUnsigned, parseExpTail, jsTrimList, isJsWhitespace, digitsToNat, setFirst]
    norm_num
